import Mathlib

/-!
# Verification of the automaker orchestration core

A shallow embedding of the task-plan parser (`parseTaskLine`,
`parseTasksFromSpec`, `detectSpecFallback`) and of the orchestration /
recovery operations of `AutoModeService` (`startAutoLoop` admission,
dependency-gated dispatch, `markFeatureInterrupted`,
`markAllRunningFeaturesInterrupted`, `getRunningAgents`,
`detectOrphanedFeatures`).

The parser functions are translated from the reimplementation shipped in the
repository's task-parsing test module (which mirrors
`auto-mode-service.ts`).  JavaScript regular-expression semantics
(unanchored scan over start positions, greedy/lazy quantifier behaviour,
`String.prototype.trim`, `split('\n')`) are modelled explicitly over
`List Char`.  The model treats `'\n'` as the sole line terminator and the
ASCII whitespace characters as the `\s` class; inputs containing other
Unicode line terminators or exotic whitespace are outside the model.
-/

/-- JavaScript `\s` on the ASCII fragment: space, tab, line feed, carriage
return, vertical tab, form feed. -/
def jsSpace (c : Char) : Bool :=
  c = ' ' || c = '\t' || c = '\n' || c = '\x0d' || c = '\x0b' || c = '\x0c'

/-- `String.prototype.trim`: drop leading and trailing whitespace. -/
def trimChars (cs : List Char) : List Char :=
  ((cs.dropWhile jsSpace).reverse.dropWhile jsSpace).reverse

/-- `trim` packaged back into a `String`. -/
def trimStr (cs : List Char) : String :=
  String.mk (trimChars cs)

/-- `String.prototype.split('\n')`: always at least one (possibly empty)
line; a trailing newline yields a trailing empty line. -/
def splitLines : List Char → List (List Char)
  | [] => [[]]
  | c :: rest =>
    if c = '\n' then [] :: splitLines rest
    else
      match splitLines rest with
      | l :: ls => (c :: l) :: ls
      | [] => [[c]]

/-- Split a line at its first `'|'`: returns the segments before and after
the pipe, or `none` when the line has no pipe. -/
def splitFirstPipe : List Char → Option (List Char × List Char)
  | [] => none
  | c :: rest =>
    if c = '|' then some ([], rest)
    else (splitFirstPipe rest).map (fun p => (c :: p.1, p.2))

/-- Is `pat` a contiguous substring of `cs`?  (JS `RegExp.test` for a
literal pattern: the engine scans every start position.) -/
def hasSubstr (pat : List Char) : List Char → Bool
  | [] => pat.isEmpty
  | cs@(_ :: rest) => pat.isPrefixOf cs || hasSubstr pat rest

/-- Strip a literal prefix, returning the remainder on success. -/
def stripPrefixList (pat cs : List Char) : Option (List Char) :=
  if pat.isPrefixOf cs then some (cs.drop pat.length) else none

/-- The `ParsedTask` record produced by the parser (`@automaker/types`).
`status` is always the literal `"pending"` at parse time. -/
structure ParsedTask where
  id : String
  description : String
  filePath : Option String := none
  phase : Option String := none
  status : String := "pending"
  deriving Repr, DecidableEq

/-- The task-line header `- \[ \] (T\d{3}):` matched at the start of `cs`:
on success returns the captured id `T###` and the remainder after the
colon. -/
def taskHeaderAt : List Char → Option (String × List Char)
  | '-' :: ' ' :: '[' :: ' ' :: ']' :: ' ' :: 'T' :: d1 :: d2 :: d3 :: ':' :: rest =>
    if d1.isDigit && d2.isDigit && d3.isDigit then
      some (String.mk ['T', d1, d2, d3], rest)
    else none
  | _ => none

/-- Body of the first task regex, `\s*([^|]+)(?:\|\s*File:\s*(.+))?$`,
applied to the text after the colon.  With a pipe present the regex can
only finish through the `File:` branch at the first pipe; without one the
description runs to the end of the line.  Both captures are `trim`med by
the caller, so the groups are returned already trimmed. -/
def taskBody1 (r : List Char) : Option (String × Option String) :=
  match splitFirstPipe r with
  | none => if r.isEmpty then none else some (trimStr r, none)
  | some (before, after) =>
    if before.isEmpty then none
    else
      match stripPrefixList "File:".toList (after.dropWhile jsSpace) with
      | some rem => if rem.isEmpty then none else some (trimStr before, some (trimStr rem))
      | none => none

/-- Body of the fallback task regex, `\s*(.+)$`: any non-empty remainder,
trimmed by the caller. -/
def taskBody2 (r : List Char) : Option String :=
  if r.isEmpty then none else some (trimStr r)

/-- Unanchored scan for `- \[ \] (T\d{3}):\s*([^|]+)(?:\|\s*File:\s*(.+))?$`:
the first start position where the whole pattern matches wins. -/
def matchTask1 : List Char → Option (String × String × Option String)
  | [] => none
  | cs@(_ :: rest) =>
    match taskHeaderAt cs with
    | some (id, r) =>
      match taskBody1 r with
      | some (d, f) => some (id, d, f)
      | none => matchTask1 rest
    | none => matchTask1 rest

/-- Unanchored scan for the simpler pattern `- \[ \] (T\d{3}):\s*(.+)$`. -/
def matchTask2 : List Char → Option (String × String)
  | [] => none
  | cs@(_ :: rest) =>
    match taskHeaderAt cs with
    | some (id, r) =>
      match taskBody2 r with
      | some d => some (id, d)
      | none => matchTask2 rest
    | none => matchTask2 rest

/-- `parseTaskLine(line, currentPhase)`: try the full pattern (with the
optional `| File:` suffix), then the simpler one; `null` when neither
matches anywhere in the line. -/
def parseTaskLine (cs : List Char) (currentPhase : Option String) : Option ParsedTask :=
  match matchTask1 cs with
  | some (id, d, f) =>
    some { id := id, description := d, filePath := f, phase := currentPhase }
  | none =>
    match matchTask2 cs with
    | some (id, d) =>
      some { id := id, description := d, phase := currentPhase }
    | none => none

/-- The literal `` ``` `` fence. -/
def tripleTick : List Char := "```".toList

/-- The literal opening tag `` ```tasks ``. -/
def tasksOpenTag : List Char := "```tasks".toList

/-- Text before the first occurrence of `` ``` `` in `cs` (`none` when no
fence follows): the lazy group `([\s\S]*?)` stops at the earliest closing
fence. -/
def beforeClosingFence : List Char → Option (List Char)
  | [] => none
  | cs@(c :: rest) =>
    if tripleTick.isPrefixOf cs then some []
    else (beforeClosingFence rest).map (fun l => c :: l)

/-- `specContent.match(/```tasks\s*([\s\S]*?)```/)`, capture group 1: scan
for the first `` ```tasks `` whose tag is followed — after the greedy
whitespace run — by a closing fence; the group is the text between the
whitespace run and the earliest closing fence.  (Whitespace characters are
never backticks, so the first closing fence after the tag lies at or after
the end of the whitespace run, and backtracking the greedy `\s*` can never
produce a different match.) -/
def findTasksBlock : List Char → Option (List Char)
  | [] => none
  | cs@(_ :: rest) =>
    match stripPrefixList tasksOpenTag cs with
    | some afterTag =>
      match beforeClosingFence (afterTag.dropWhile jsSpace) with
      | some content => some content
      | none => findTasksBlock rest
    | none => findTasksBlock rest

/-- The phase-header regex `^##\s*(.+)$` applied to an already-trimmed
line: the capture, post-`trim`, is the text after the `##` trimmed, and
the match requires at least one character after the `##`. -/
def phaseOf (t : List Char) : Option String :=
  match t with
  | '#' :: '#' :: rest => if rest.isEmpty then none else some (trimStr rest)
  | _ => none

/-- The literal task-marker prefix checked before attempting a task parse. -/
def taskMark : List Char := "- [ ]".toList

/-- The per-line loop over the lines of a fenced tasks block, threading
`currentPhase`: a phase header updates the phase and emits nothing; a line
starting with `- [ ]` is parsed with the current phase; anything else is
skipped. -/
def processLines : List (List Char) → Option String → List ParsedTask
  | [], _ => []
  | l :: ls, currentPhase =>
    let t := trimChars l
    match phaseOf t with
    | some p => processLines ls (some p)
    | none =>
      if taskMark.isPrefixOf t then
        match parseTaskLine t currentPhase with
        | some task => task :: processLines ls currentPhase
        | none => processLines ls currentPhase
      else processLines ls currentPhase

/-- One fallback match of the `gm`-flagged pattern `- \[ \] T\d{3}:.*$`
inside a single line:
the suffix starting at the first position where the task header matches
(the `.*$` then runs to the end of the line), or `none`. -/
def firstTaskSuffix : List Char → Option (List Char)
  | [] => none
  | cs@(_ :: rest) =>
    if (taskHeaderAt cs).isSome then some cs else firstTaskSuffix rest

/-- All matches of the `gm`-flagged pattern `- \[ \] T\d{3}:.*$` over the
whole text: at most
one per line, in line order; `[]` doubles for JS `match` returning
`null`. -/
def fallbackTaskLines (cs : List Char) : List (List Char) :=
  (splitLines cs).filterMap firstTaskSuffix

/-- `parseTasksFromSpec(specContent)`: parse the first fenced `tasks`
block when one exists (with phase attribution); otherwise fall back to
scanning the whole text for task lines, with no phase attribution. -/
def parseTasksFromSpec (specContent : String) : List ParsedTask :=
  match findTasksBlock specContent.data with
  | some tasksContent => processLines (splitLines tasksContent) none
  | none => (fallbackTaskLines specContent.data).filterMap (fun l => parseTaskLine l none)

/-- `/```tasks[\s\S]*```/.test(text)`: some `` ```tasks `` occurrence is
followed (possibly immediately) by a closing `` ``` ``. -/
def hasTasksBlockTest : List Char → Bool
  | [] => false
  | cs@(_ :: rest) =>
    (match stripPrefixList tasksOpenTag cs with
     | some after => hasSubstr tripleTick after
     | none => false) || hasTasksBlockTest rest

/-- The test of the pattern `- \[ \] T\d{3}:` on the whole text: the
task-line header occurs somewhere in the text. -/
def containsTaskHeader : List Char → Bool
  | [] => false
  | cs@(_ :: rest) => (taskHeaderAt cs).isSome || containsTaskHeader rest

/-- Scan for `key` followed by `\s*` and then one of `alts` (the shape of
`/implementation\s*(plan|steps|approach)/` and `/##\s*(overview|summary)/`):
the greedy `\s*` cannot skip a viable alternative because no alternative
starts with whitespace. -/
def scanKeyWsAlt (key : List Char) (alts : List (List Char)) : List Char → Bool
  | [] => false
  | cs@(_ :: rest) =>
    (match stripPrefixList key cs with
     | some after => alts.any (fun a => a.isPrefixOf (after.dropWhile jsSpace))
     | none => false) || scanKeyWsAlt key alts rest

/-- ASCII lowering, modelling the `/i` flag on ASCII patterns. -/
def lowerChars (cs : List Char) : List Char := cs.map Char.toLower

/-- `/acceptance criteria/i.test(text)`. -/
def hasAcceptanceCriteriaB (cs : List Char) : Bool :=
  hasSubstr "acceptance criteria".toList (lowerChars cs)

/-- `/technical context/i.test(text)`. -/
def hasTechnicalContextB (cs : List Char) : Bool :=
  hasSubstr "technical context".toList (lowerChars cs)

/-- `/problem statement/i.test(text)`. -/
def hasProblemStatementB (cs : List Char) : Bool :=
  hasSubstr "problem statement".toList (lowerChars cs)

/-- `/user story/i.test(text)`. -/
def hasUserStoryB (cs : List Char) : Bool :=
  hasSubstr "user story".toList (lowerChars cs)

/-- `/\*\*Goal\*\*:/i.test(text)`. -/
def hasGoalB (cs : List Char) : Bool :=
  hasSubstr "**goal**:".toList (lowerChars cs)

/-- `/\*\*Solution\*\*:/i.test(text)`. -/
def hasSolutionB (cs : List Char) : Bool :=
  hasSubstr "**solution**:".toList (lowerChars cs)

/-- `/implementation\s*(plan|steps|approach)/i.test(text)`. -/
def hasImplementationB (cs : List Char) : Bool :=
  scanKeyWsAlt "implementation".toList
    ["plan".toList, "steps".toList, "approach".toList] (lowerChars cs)

/-- `/##\s*(overview|summary)/i.test(text)`. -/
def hasOverviewB (cs : List Char) : Bool :=
  scanKeyWsAlt "##".toList ["overview".toList, "summary".toList] (lowerChars cs)

/-- Task structure: a tasks block or at least one task line. -/
def hasTaskStructureB (cs : List Char) : Bool :=
  hasTasksBlockTest cs || containsTaskHeader cs

/-- Spec-like prose: any of the eight content indicators. -/
def hasSpecContentB (cs : List Char) : Bool :=
  hasAcceptanceCriteriaB cs || hasTechnicalContextB cs || hasProblemStatementB cs ||
  hasUserStoryB cs || hasGoalB cs || hasSolutionB cs ||
  hasImplementationB cs || hasOverviewB cs

/-- `detectSpecFallback(text)`: spec detected when the text has task
structure and spec-like prose. -/
def detectSpecFallback (text : String) : Bool :=
  hasTaskStructureB text.data && hasSpecContentB text.data

/-- Modelled from the spec: the closed feature-status enum (§3), with the
three pipeline sub-states as distinguishable variants.  The running state
is named `in_progress`, the concrete status string used by the testable
properties (§8). -/
inductive FeatureStatus where
  | backlog
  | pending
  | in_progress
  | completed
  | failed
  | waiting_approval
  | interrupted
  | verified
  | pipeline_implementation
  | pipeline_testing
  | pipeline_review
  deriving DecidableEq, Repr

/-- Modelled from the spec: a pipeline sub-state (`pipeline_implementation`,
`pipeline_testing`, `pipeline_review`), decided by exhaustive matching. -/
def isPipelineStatus : FeatureStatus → Bool
  | FeatureStatus.pipeline_implementation => true
  | FeatureStatus.pipeline_testing => true
  | FeatureStatus.pipeline_review => true
  | _ => false

/-- Modelled from the spec: the feature record (§3), restricted to the
fields the orchestration core reads (id, title, description, status,
priority, dependencies, branchName); execution hints and the remaining
fields are opaque to the orchestrator and omitted. -/
structure Feature where
  id : String
  title : Option String := none
  description : Option String := none
  status : FeatureStatus := FeatureStatus.backlog
  priority : Int := 0
  dependencies : List String := []
  branchName : Option String := none
  deriving DecidableEq, Repr

/-- Modelled from the spec: a Running Registry entry (§3),
`{featureId, projectPath, isAutoMode}`. -/
structure RunningFeatureEntry where
  featureId : String
  projectPath : String
  isAutoMode : Bool
  deriving DecidableEq, Repr

/-- A status-update call issued against the Feature Store
(`updateStatus(projectPath, id, status)`, §6). -/
inductive UpdateCmd where
  | update (projectPath featureId : String) (status : FeatureStatus)
  deriving DecidableEq, Repr

/-- Modelled from the spec: the external collaborators of the Recovery
Manager (§4.3, §6) — a fallible feature load (`Except.error` for a store
failure, `Except.ok none` for a missing record) and an oracle saying
whether the status update for a given feature rejects. -/
structure RecoveryEnv where
  load : String → String → Except String (Option Feature)
  updateFails : String → String → Bool

/-- Modelled from the spec: `markFeatureInterrupted(projectPath, featureId,
reason?)` (§4.3), whose implementation is not under `src/` (only its test
module is).  Load the current record: a pipeline sub-state is preserved
(no update issued); otherwise — including when the record cannot be loaded
at all — the status is set to `interrupted`.  The result is the list of
status-update calls issued, paired with whether the operation rejects
(an update failure propagates to the caller, §7).  The `reason` argument
only feeds logging and is omitted. -/
def markFeatureInterrupted (env : RecoveryEnv) (projectPath featureId : String) :
    List UpdateCmd × Bool :=
  let issue : List UpdateCmd × Bool :=
    ([UpdateCmd.update projectPath featureId FeatureStatus.interrupted],
     env.updateFails projectPath featureId)
  match env.load projectPath featureId with
  | Except.ok (some f) => if isPipelineStatus f.status then ([], false) else issue
  | Except.ok none => issue
  | Except.error _ => issue

/-- Modelled from the spec: `markAllRunningFeaturesInterrupted(reason?)`
(§4.3, §9) — a settle-all concurrent map over the Running Registry
applying the single-feature rule to each entry; each entry's failure is
caught individually and aggregated into a log (here: the failing feature
ids, second component), never propagated.  Each entry's processing is
independent of the others, so the concurrent settle-all is modelled as
the per-entry results in registry order. -/
def markAllRunningFeaturesInterrupted (env : RecoveryEnv)
    (entries : List RunningFeatureEntry) : List UpdateCmd × List String :=
  match entries with
  | [] => ([], [])
  | e :: es =>
    let r := markFeatureInterrupted env e.projectPath e.featureId
    let rest := markAllRunningFeaturesInterrupted env es
    (r.1 ++ rest.1, (if r.2 then [e.featureId] else []) ++ rest.2)

/-- Modelled from the spec: the Feature Store lookup used by
`getRunningAgents` (`get(projectPath, id) → Feature|null`, §6), with
`Except.error` for a failed lookup. -/
structure AgentsEnv where
  get : String → String → Except String (Option Feature)

/-- The per-entry record returned by `getRunningAgents` (§4.2). -/
structure RunningAgentInfo where
  featureId : String
  projectPath : String
  projectName : String
  isAutoMode : Bool
  title : Option String
  description : Option String
  deriving DecidableEq, Repr

/-- Split at every occurrence of a separator character (the shape of
JS `split('/')` / `split('\n')`). -/
def splitOnSep (sep : Char) : List Char → List (List Char)
  | [] => [[]]
  | c :: rest =>
    if c = sep then [] :: splitOnSep sep rest
    else
      match splitOnSep sep rest with
      | l :: ls => (c :: l) :: ls
      | [] => [[c]]

/-- Modelled from the spec: `projectName` is the last path segment of the
project path (§4.2). -/
def lastPathSegment (projectPath : String) : String :=
  String.mk ((splitOnSep '/' projectPath.data).getLastD projectPath.data)

/-- Modelled from the spec: enrichment of one Running Registry entry
(§4.2) — a failed or missing lookup degrades title/description to
undefined rather than failing the call. -/
def agentInfoOf (env : AgentsEnv) (e : RunningFeatureEntry) : RunningAgentInfo :=
  let fetched : Option String × Option String :=
    match env.get e.projectPath e.featureId with
    | Except.ok (some f) => (f.title, f.description)
    | Except.ok none => (none, none)
    | Except.error _ => (none, none)
  { featureId := e.featureId
    projectPath := e.projectPath
    projectName := lastPathSegment e.projectPath
    isAutoMode := e.isAutoMode
    title := fetched.1
    description := fetched.2 }

/-- Modelled from the spec: `getRunningAgents()` (§4.2), one record per
Running Registry entry; the per-entry lookups run concurrently and
independently, so the call is the entrywise enrichment in registry
order. -/
def getRunningAgents (env : AgentsEnv) (entries : List RunningFeatureEntry) :
    List RunningAgentInfo :=
  entries.map (agentInfoOf env)

/-- The orphan-detection result `{feature, missingBranch}` (§3). -/
structure OrphanResult where
  feature : Feature
  missingBranch : String
  deriving DecidableEq, Repr

/-- Modelled from the spec: the collaborators of the Orphan Detector
(§4.4, §6) — the fallible Feature Store `getAll` and the Git Branch
Oracle. -/
structure OrphanEnv where
  getAll : String → Except String (List Feature)
  existingBranches : String → List String
  currentBranch : String → String

/-- A blank branch name: empty or whitespace-only (§4.4). -/
def isBlank (s : String) : Bool := (trimChars s.data).isEmpty

/-- Modelled from the spec: the orphan condition for one feature (§4.4) —
`branchName` present and non-blank, not in the existing-branch set, and
not equal to the current branch. -/
def isOrphaned (existing : List String) (current : String) (f : Feature) : Bool :=
  match f.branchName with
  | some b => !(isBlank b) && !(existing.contains b) && !(b == current)
  | none => false

/-- Modelled from the spec: `detectOrphanedFeatures(projectPath)` (§4.4),
whose implementation is not under `src/` (only its test module is).  Load
all features; emit `{feature, missingBranch: branchName}` for each orphan;
a Feature Store failure degrades to the empty result. -/
def detectOrphanedFeatures (env : OrphanEnv) (projectPath : String) : List OrphanResult :=
  match env.getAll projectPath with
  | Except.error _ => []
  | Except.ok feats =>
    let existing := env.existingBranches projectPath
    let current := env.currentBranch projectPath
    feats.filterMap fun f =>
      match f.branchName with
      | some b =>
        if !(isBlank b) && !(existing.contains b) && !(b == current) then
          some { feature := f, missingBranch := b }
        else none
      | none => none

/-- Modelled from the spec: the Orchestrator's per-project loop bookkeeping
(§4.1) — the set of projects whose auto-loop is active. -/
structure OrchestratorState where
  activeLoops : List String := []
  deriving DecidableEq, Repr

/-- Modelled from the spec: the synchronous admission check of
`startAutoLoop(projectPath, maxConcurrency)` (§4.1, §7), whose
implementation is not under `src/` (only its test module is).  A second
call for a project whose loop is active fails with the "already running"
condition; otherwise the loop is registered.  The concurrency ceiling does
not participate in admission. -/
def startAutoLoop (st : OrchestratorState) (projectPath : String) (_maxConcurrency : Nat) :
    Except String OrchestratorState :=
  if st.activeLoops.contains projectPath then
    Except.error "already running"
  else
    Except.ok { st with activeLoops := projectPath :: st.activeLoops }

/-- Modelled from the spec: pickup-candidate statuses — `pending` features
plus `interrupted` recovery candidates; `waiting_approval` requires a
human decision and is excluded (§4.1, §4.3). -/
def statusPickable (f : Feature) : Bool :=
  f.status == FeatureStatus.pending || f.status == FeatureStatus.interrupted

/-- Modelled from the spec: satisfaction of a single dependency (§3).
Without skip-verification the dependency must be `completed` or
`verified`; with skip-verification a `failed` dependency still blocks
(§9's conservative reading); an unknown dependency id blocks. -/
def dependencySatisfied (all : List Feature) (skipVerification : Bool) (depId : String) : Bool :=
  match all.find? (fun d => d.id == depId) with
  | some d =>
    if skipVerification then !(d.status == FeatureStatus.failed)
    else d.status == FeatureStatus.completed || d.status == FeatureStatus.verified
  | none => false

/-- Modelled from the spec: all of a feature's dependencies are
satisfied. -/
def dependenciesSatisfied (all : List Feature) (skipVerification : Bool) (f : Feature) : Bool :=
  f.dependencies.all (dependencySatisfied all skipVerification)

/-- Priority-ordered insertion (higher priority first; equal priorities
keep earlier features first). -/
def insertByPriority (f : Feature) : List Feature → List Feature
  | [] => [f]
  | g :: gs => if g.priority ≤ f.priority then f :: g :: gs else g :: insertByPriority f gs

/-- Sort by priority, highest first. -/
def sortByPriority (l : List Feature) : List Feature := l.foldr insertByPriority []

/-- Modelled from the spec: the loop body's eligibility filter (§4.1,
steps b–c) — candidate status, not already running, dependencies
satisfied. -/
def eligibleFeatures (all : List Feature) (running : List String)
    (skipVerification : Bool) : List Feature :=
  all.filter fun f =>
    statusPickable f && !(running.contains f.id) &&
      dependenciesSatisfied all skipVerification f

/-- Modelled from the spec: the loop body's selection (§4.1, step d) —
the highest-priority eligible features up to the available slots; exactly
these are dispatched to the Agent Executor in step e. -/
def selectForDispatch (all : List Feature) (running : List String)
    (skipVerification : Bool) (slots : Nat) : List Feature :=
  (sortByPriority (eligibleFeatures all running skipVerification)).take slots

/-! ## Helper lemmas -/

/-- A single-feature interruption issues either no update or exactly the
`interrupted` update for its own feature. -/
theorem markFeatureInterrupted_fst_cases (env : RecoveryEnv) (pp fid : String) :
    (markFeatureInterrupted env pp fid).1 = [] ∨
    (markFeatureInterrupted env pp fid).1 =
      [UpdateCmd.update pp fid FeatureStatus.interrupted] := by
  unfold markFeatureInterrupted
  rcases h : env.load pp fid with e | o
  · simp
  · rcases o with _ | f
    · simp
    · by_cases hp : isPipelineStatus f.status <;> simp [hp]

/-- The update trace of the settle-all batch is the concatenation of the
per-entry traces, in registry order. -/
theorem markAll_fst_eq (env : RecoveryEnv) (entries : List RunningFeatureEntry) :
    (markAllRunningFeaturesInterrupted env entries).1 =
      entries.flatMap (fun e => (markFeatureInterrupted env e.projectPath e.featureId).1) := by
  induction entries with
  | nil => rfl
  | cons e es ih => simp [markAllRunningFeaturesInterrupted, ih]

/-- The failure log of the settle-all batch is the list of feature ids of
exactly the entries whose own operation rejected. -/
theorem markAll_snd_eq (env : RecoveryEnv) (entries : List RunningFeatureEntry) :
    (markAllRunningFeaturesInterrupted env entries).2 =
      (entries.filter
        (fun e => (markFeatureInterrupted env e.projectPath e.featureId).2)).map
        (fun e => e.featureId) := by
  induction entries with
  | nil => rfl
  | cons e es ih =>
    by_cases h : (markFeatureInterrupted env e.projectPath e.featureId).2 <;>
      simp [markAllRunningFeaturesInterrupted, ih, h]

/-! ## Claim theorems -/

/-- C2: for every Running Registry entry processed by
`markAllRunningFeaturesInterrupted`, and for every call of
`markFeatureInterrupted`, a loaded record in a pipeline sub-state receives
no status update (its status stays unchanged), while any other loaded
record has its status set to `interrupted`. -/
theorem pipeline_substates_preserved_on_interruption
    (env : RecoveryEnv) (pp fid : String) (f : Feature)
    (hload : env.load pp fid = Except.ok (some f)) :
    (isPipelineStatus f.status = true → markFeatureInterrupted env pp fid = ([], false)) ∧
    (isPipelineStatus f.status = false →
      (markFeatureInterrupted env pp fid).1 =
        [UpdateCmd.update pp fid FeatureStatus.interrupted]) ∧
    (∀ (entries : List RunningFeatureEntry) (s : FeatureStatus),
      isPipelineStatus f.status = true →
      UpdateCmd.update pp fid s ∉ (markAllRunningFeaturesInterrupted env entries).1) ∧
    (∀ (entries : List RunningFeatureEntry), isPipelineStatus f.status = false →
      (∃ e ∈ entries, e.projectPath = pp ∧ e.featureId = fid) →
      UpdateCmd.update pp fid FeatureStatus.interrupted ∈
        (markAllRunningFeaturesInterrupted env entries).1) := by
  have hsingle : ∀ hp : isPipelineStatus f.status = true,
      markFeatureInterrupted env pp fid = ([], false) := by
    intro hp
    unfold markFeatureInterrupted
    rw [hload]
    simp [hp]
  have hissue : ∀ _hp : isPipelineStatus f.status = false,
      (markFeatureInterrupted env pp fid).1 =
        [UpdateCmd.update pp fid FeatureStatus.interrupted] := by
    intro hp
    unfold markFeatureInterrupted
    rw [hload]
    simp [hp]
  refine ⟨hsingle, hissue, ?_, ?_⟩
  · intro entries s hp hmem
    rw [markAll_fst_eq] at hmem
    rcases List.mem_flatMap.mp hmem with ⟨e, _, hce⟩
    rcases markFeatureInterrupted_fst_cases env e.projectPath e.featureId with hnil | hone
    · rw [hnil] at hce
      exact absurd hce (List.not_mem_nil _)
    · rw [hone] at hce
      have hc := List.mem_singleton.mp hce
      injection hc with h1 h2 h3
      have : (markFeatureInterrupted env e.projectPath e.featureId).1 = [] := by
        rw [← h1, ← h2, hsingle hp]
      rw [this] at hone
      exact absurd hone (by simp)
  · intro entries hp ⟨e, hmem, hepp, hefid⟩
    rw [markAll_fst_eq]
    refine List.mem_flatMap.mpr ⟨e, hmem, ?_⟩
    rw [hepp, hefid, hissue hp]
    exact List.mem_singleton.mpr rfl

/-- C2 witness: an environment whose store holds `feature-1` in
`in_progress` and `feature-2` in `pipeline_testing`; the pipeline feature
is untouched by both the single-feature call and the batch, while the
`in_progress` feature is marked interrupted. -/
theorem pipeline_substates_preserved_on_interruption_witness :
    markFeatureInterrupted
      { load := fun _ fid =>
          if fid = "feature-2" then
            Except.ok (some { id := "feature-2", status := FeatureStatus.pipeline_testing })
          else Except.ok (some { id := fid, status := FeatureStatus.in_progress }),
        updateFails := fun _ _ => false } "/project-b" "feature-2" = ([], false) ∧
    UpdateCmd.update "/project-b" "feature-2" FeatureStatus.interrupted ∉
      (markAllRunningFeaturesInterrupted
        { load := fun _ fid =>
            if fid = "feature-2" then
              Except.ok (some { id := "feature-2", status := FeatureStatus.pipeline_testing })
            else Except.ok (some { id := fid, status := FeatureStatus.in_progress }),
          updateFails := fun _ _ => false }
        [{ featureId := "feature-1", projectPath := "/project-a", isAutoMode := true },
         { featureId := "feature-2", projectPath := "/project-b", isAutoMode := false }]).1 ∧
    UpdateCmd.update "/project-a" "feature-1" FeatureStatus.interrupted ∈
      (markAllRunningFeaturesInterrupted
        { load := fun _ fid =>
            if fid = "feature-2" then
              Except.ok (some { id := "feature-2", status := FeatureStatus.pipeline_testing })
            else Except.ok (some { id := fid, status := FeatureStatus.in_progress }),
          updateFails := fun _ _ => false }
        [{ featureId := "feature-1", projectPath := "/project-a", isAutoMode := true },
         { featureId := "feature-2", projectPath := "/project-b", isAutoMode := false }]).1 := by
  refine ⟨?_, ?_, ?_⟩
  · exact (pipeline_substates_preserved_on_interruption _ "/project-b" "feature-2"
      { id := "feature-2", status := FeatureStatus.pipeline_testing } rfl).1 rfl
  · exact (pipeline_substates_preserved_on_interruption _ "/project-b" "feature-2"
      { id := "feature-2", status := FeatureStatus.pipeline_testing } rfl).2.2.1 _ _ rfl
  · exact (pipeline_substates_preserved_on_interruption _ "/project-a" "feature-1"
      { id := "feature-1", status := FeatureStatus.in_progress } rfl).2.2.2 _ rfl
      ⟨{ featureId := "feature-1", projectPath := "/project-a", isAutoMode := true },
        by simp, rfl, rfl⟩

/-- C4: the settle-all batch processes every Running Registry entry even
when some entries' loads or updates fail: the update trace is exactly the
concatenation of the per-entry traces, each entry's own update calls all
appear in it, and per-entry failures are caught individually into the
failure log instead of propagating (the batch itself always resolves —
in the model it is a total function into a trace/log pair). -/
theorem markAll_partial_failure_isolation
    (env : RecoveryEnv) (entries : List RunningFeatureEntry) :
    (markAllRunningFeaturesInterrupted env entries).1 =
      entries.flatMap (fun e => (markFeatureInterrupted env e.projectPath e.featureId).1) ∧
    (∀ e ∈ entries, ∀ c ∈ (markFeatureInterrupted env e.projectPath e.featureId).1,
      c ∈ (markAllRunningFeaturesInterrupted env entries).1) ∧
    (markAllRunningFeaturesInterrupted env entries).2 =
      (entries.filter
        (fun e => (markFeatureInterrupted env e.projectPath e.featureId).2)).map
        (fun e => e.featureId) := by
  refine ⟨markAll_fst_eq env entries, ?_, markAll_snd_eq env entries⟩
  intro e he c hc
  rw [markAll_fst_eq]
  exact List.mem_flatMap.mpr ⟨e, he, hc⟩

/-- C4 witness: two entries where the first's update rejects; the second's
update still appears in the trace and the failure is logged for the first
entry only. -/
theorem markAll_partial_failure_isolation_witness :
    UpdateCmd.update "/project-b" "feature-2" FeatureStatus.interrupted ∈
      (markAllRunningFeaturesInterrupted
        { load := fun _ fid => Except.ok (some { id := fid, status := FeatureStatus.in_progress }),
          updateFails := fun _ fid => fid = "feature-1" }
        [{ featureId := "feature-1", projectPath := "/project-a", isAutoMode := true },
         { featureId := "feature-2", projectPath := "/project-b", isAutoMode := false }]).1 ∧
    (markAllRunningFeaturesInterrupted
      { load := fun _ fid => Except.ok (some { id := fid, status := FeatureStatus.in_progress }),
        updateFails := fun _ fid => fid = "feature-1" }
      [{ featureId := "feature-1", projectPath := "/project-a", isAutoMode := true },
       { featureId := "feature-2", projectPath := "/project-b", isAutoMode := false }]).2 =
      ["feature-1"] := by
  constructor
  · exact (markAll_partial_failure_isolation _ _).2.1
      { featureId := "feature-2", projectPath := "/project-b", isAutoMode := false }
      (by simp) _ (by decide)
  · rw [(markAll_partial_failure_isolation _ _).2.2]
    decide

/-- C5: `markFeatureInterrupted` with an unloadable record (the store
returns no record, or the load itself fails) still sets the status to
`interrupted`; and when an update is issued and the update itself fails,
that failure propagates to the caller. -/
theorem markFeatureInterrupted_default_and_propagation
    (env : RecoveryEnv) (pp fid : String) :
    (env.load pp fid = Except.ok none →
      (markFeatureInterrupted env pp fid).1 =
        [UpdateCmd.update pp fid FeatureStatus.interrupted]) ∧
    (∀ err, env.load pp fid = Except.error err →
      (markFeatureInterrupted env pp fid).1 =
        [UpdateCmd.update pp fid FeatureStatus.interrupted]) ∧
    ((markFeatureInterrupted env pp fid).1 ≠ [] → env.updateFails pp fid = true →
      (markFeatureInterrupted env pp fid).2 = true) := by
  refine ⟨?_, ?_, ?_⟩
  · intro h
    unfold markFeatureInterrupted
    rw [h]
  · intro err h
    unfold markFeatureInterrupted
    rw [h]
  · intro hne hfail
    unfold markFeatureInterrupted at hne ⊢
    rcases h : env.load pp fid with e | o
    · simpa [h] using hfail
    · rcases o with _ | f
      · simpa [h] using hfail
      · rw [h] at hne
        by_cases hp : isPipelineStatus f.status
        · simp [hp] at hne
        · simp [hp, hfail]

/-- C5 witness: a store with no record still yields the `interrupted`
update, and a rejecting update propagates. -/
theorem markFeatureInterrupted_default_and_propagation_witness :
    (markFeatureInterrupted
      { load := fun _ _ => Except.ok none, updateFails := fun _ _ => false }
      "/test/project" "feature-123").1 =
      [UpdateCmd.update "/test/project" "feature-123" FeatureStatus.interrupted] ∧
    (markFeatureInterrupted
      { load := fun _ fid => Except.ok (some { id := fid, status := FeatureStatus.in_progress }),
        updateFails := fun _ _ => true }
      "/test/project" "feature-123").2 = true := by
  constructor
  · exact (markFeatureInterrupted_default_and_propagation _ "/test/project" "feature-123").1 rfl
  · exact (markFeatureInterrupted_default_and_propagation
      { load := fun _ fid => Except.ok (some { id := fid, status := FeatureStatus.in_progress }),
        updateFails := fun _ _ => true }
      "/test/project" "feature-123").2.2 (by decide) rfl

/-- C9: a second `startAutoLoop` for a project whose loop is active fails
synchronously with the "already running" condition, and the project's
loop registration from the first call is untouched. -/
theorem startAutoLoop_double_call_rejected
    (st : OrchestratorState) (projectPath : String) (m m' : Nat) (st' : OrchestratorState)
    (h : startAutoLoop st projectPath m = Except.ok st') :
    startAutoLoop st' projectPath m' = Except.error "already running" ∧
    projectPath ∈ st'.activeLoops := by
  unfold startAutoLoop at h
  split at h
  · exact absurd h (by simp)
  · injection h with hst
    subst hst
    have hmem : projectPath ∈
        ({ st with activeLoops := projectPath :: st.activeLoops } : OrchestratorState).activeLoops :=
      List.mem_cons_self _ _
    refine ⟨?_, hmem⟩
    unfold startAutoLoop
    have hc : ({ st with activeLoops := projectPath :: st.activeLoops } :
        OrchestratorState).activeLoops.contains projectPath = true := by
      simp
    simp [hc]

/-- C9 witness: starting the loop for `/test/project` and calling again. -/
theorem startAutoLoop_double_call_rejected_witness :
    startAutoLoop { activeLoops := ["/test/project"] } "/test/project" 3 =
      Except.error "already running" ∧
    "/test/project" ∈ OrchestratorState.activeLoops { activeLoops := ["/test/project"] } :=
  startAutoLoop_double_call_rejected { activeLoops := [] } "/test/project" 3 3
    { activeLoops := ["/test/project"] } rfl

/-- C6: `getRunningAgents` returns `[]` on an empty registry; otherwise
one record per entry, copying `featureId`/`projectPath`/`isAutoMode`,
with `projectName` the last path segment; a failed or missing Feature
Store lookup degrades that entry's title and description to `none`
without dropping the entry or failing the call. -/
theorem getRunningAgents_per_entry (env : AgentsEnv) :
    getRunningAgents env [] = [] ∧
    ∀ entries : List RunningFeatureEntry,
      (getRunningAgents env entries).length = entries.length ∧
      ∀ e ∈ entries, ∃ a ∈ getRunningAgents env entries,
        a.featureId = e.featureId ∧ a.projectPath = e.projectPath ∧
        a.isAutoMode = e.isAutoMode ∧ a.projectName = lastPathSegment e.projectPath ∧
        (∀ err, env.get e.projectPath e.featureId = Except.error err →
          a.title = none ∧ a.description = none) ∧
        (env.get e.projectPath e.featureId = Except.ok none →
          a.title = none ∧ a.description = none) ∧
        (∀ f, env.get e.projectPath e.featureId = Except.ok (some f) →
          a.title = f.title ∧ a.description = f.description) := by
  refine ⟨rfl, fun entries => ⟨List.length_map _ _, fun e he => ?_⟩⟩
  refine ⟨agentInfoOf env e, List.mem_map_of_mem _ he, rfl, rfl, rfl, rfl, ?_, ?_, ?_⟩
  · intro err herr
    unfold agentInfoOf
    rw [herr]
    exact ⟨rfl, rfl⟩
  · intro hnone
    unfold agentInfoOf
    rw [hnone]
    exact ⟨rfl, rfl⟩
  · intro f hf
    unfold agentInfoOf
    rw [hf]
    exact ⟨rfl, rfl⟩

/-- C6 witness: a two-entry registry where one lookup fails and the other
succeeds; both entries are present, the failing one with undefined
title/description, and `projectName` is the last path segment. -/
theorem getRunningAgents_per_entry_witness :
    getRunningAgents
      { get := fun _ fid =>
          if fid = "feature-error" then Except.error "Database connection failed"
          else Except.ok (some { id := fid, title := some "Feature Two",
                                 description := some "Description two" }) }
      [] = [] ∧
    getRunningAgents
      { get := fun _ fid =>
          if fid = "feature-error" then Except.error "Database connection failed"
          else Except.ok (some { id := fid, title := some "Feature Two",
                                 description := some "Description two" }) }
      [{ featureId := "feature-error", projectPath := "/project-error", isAutoMode := true },
       { featureId := "feature-2", projectPath := "/home/user/my-project", isAutoMode := false }] =
      [{ featureId := "feature-error", projectPath := "/project-error",
         projectName := "project-error", isAutoMode := true,
         title := none, description := none },
       { featureId := "feature-2", projectPath := "/home/user/my-project",
         projectName := "my-project", isAutoMode := false,
         title := some "Feature Two", description := some "Description two" }] := by
  constructor
  · exact (getRunningAgents_per_entry _).1
  · decide

/-- Each loaded feature contributes exactly one orphan record when the
orphan condition holds and nothing otherwise. -/
theorem orphan_filterMap_eq (existing : List String) (current : String)
    (feats : List Feature) :
    (feats.filterMap fun f =>
      match f.branchName with
      | some b =>
        if !(isBlank b) && !(existing.contains b) && !(b == current) then
          some ({ feature := f, missingBranch := b } : OrphanResult)
        else none
      | none => none) =
    (feats.filter (isOrphaned existing current)).map
      (fun f => ({ feature := f, missingBranch := f.branchName.getD "" } : OrphanResult)) := by
  induction feats with
  | nil => rfl
  | cons f fs ih =>
    rcases hb : f.branchName with _ | b
    · simp only [List.filterMap_cons, List.filter_cons, isOrphaned, hb, Bool.false_eq_true,
        if_false]
      exact ih
    · by_cases hcond : (!(isBlank b) && !(existing.contains b) && !(b == current)) = true
      · simp only [List.filterMap_cons, List.filter_cons, isOrphaned, hb, hcond, if_true,
          List.map_cons, Option.getD_some]
        rw [ih]
      · simp only [List.filterMap_cons, List.filter_cons, isOrphaned, hb,
          Bool.not_eq_true] at hcond ⊢
        simp only [hcond, Bool.false_eq_true, if_false]
        exact ih

/-- C3: `detectOrphanedFeatures` returns exactly one
`{feature, missingBranch}` record per loaded feature whose branch name is
non-blank, absent from the existing-branch set and different from the
current branch; a Feature Store failure yields the empty list. -/
theorem detectOrphanedFeatures_characterization (env : OrphanEnv) (projectPath : String) :
    (∀ feats, env.getAll projectPath = Except.ok feats →
      detectOrphanedFeatures env projectPath =
        (feats.filter
          (isOrphaned (env.existingBranches projectPath) (env.currentBranch projectPath))).map
          (fun f => { feature := f, missingBranch := f.branchName.getD "" })) ∧
    (∀ err, env.getAll projectPath = Except.error err →
      detectOrphanedFeatures env projectPath = []) := by
  constructor
  · intro feats hok
    simp only [detectOrphanedFeatures, hok]
    exact orphan_filterMap_eq _ _ feats
  · intro err herr
    simp only [detectOrphanedFeatures, herr]

/-- C3 witness: the §8 scenario — existing branches `{main, feature-1}`,
current branch `main`; a feature on `deleted-branch` is reported, one on
the current branch, blank/whitespace names and existing branches are not;
a failing store yields `[]`. -/
theorem detectOrphanedFeatures_characterization_witness :
    detectOrphanedFeatures
      { getAll := fun _ => Except.ok
          [{ id := "f1", branchName := some "feature-1" },
           { id := "f2", branchName := some "deleted-branch" },
           { id := "f3" },
           { id := "f4", branchName := some "   " },
           { id := "f5", branchName := some "main" }],
        existingBranches := fun _ => ["main", "feature-1"],
        currentBranch := fun _ => "main" } "/test/project" =
      [{ feature := { id := "f2", branchName := some "deleted-branch" },
         missingBranch := "deleted-branch" }] ∧
    detectOrphanedFeatures
      { getAll := fun _ => Except.error "Failed to load features",
        existingBranches := fun _ => ["main"],
        currentBranch := fun _ => "main" } "/test/project" = [] := by
  constructor
  · rw [(detectOrphanedFeatures_characterization _ "/test/project").1 _ rfl]
    rfl
  · exact (detectOrphanedFeatures_characterization _ "/test/project").2 _ rfl

/-- Membership is preserved by priority-ordered insertion. -/
theorem mem_insertByPriority {x f : Feature} {l : List Feature} :
    x ∈ insertByPriority f l ↔ x = f ∨ x ∈ l := by
  induction l with
  | nil => simp [insertByPriority]
  | cons g gs ih =>
    by_cases h : g.priority ≤ f.priority
    · simp [insertByPriority, h]
    · simp [insertByPriority, h, ih]
      tauto

/-- The priority sort permutes but never invents features. -/
theorem mem_of_mem_sortByPriority {x : Feature} {l : List Feature} :
    x ∈ sortByPriority l → x ∈ l := by
  induction l with
  | nil => simp [sortByPriority]
  | cons g gs ih =>
    intro hx
    have hx' : x ∈ insertByPriority g (sortByPriority gs) := hx
    rcases mem_insertByPriority.mp hx' with h | h
    · exact h ▸ List.mem_cons_self _ _
    · exact List.mem_cons_of_mem _ (ih h)

/-- C1: without skip-verification, a feature selected for dispatch has
every dependency that resolves to a feature record in status `completed`
or `verified`; dispatch never happens while a dependency is outside that
set. -/
theorem dispatch_requires_satisfied_dependencies
    (all : List Feature) (running : List String) (slots : Nat) (f : Feature)
    (hsel : f ∈ selectForDispatch all running false slots) :
    ∀ depId ∈ f.dependencies, ∀ d, all.find? (fun x => x.id == depId) = some d →
      d.status = FeatureStatus.completed ∨ d.status = FeatureStatus.verified := by
  intro depId hdep d hfind
  have helig : f ∈ eligibleFeatures all running false :=
    mem_of_mem_sortByPriority (List.mem_of_mem_take hsel)
  have hcond := (List.mem_filter.mp helig).2
  have hdeps : dependenciesSatisfied all false f = true := by
    simp only [Bool.and_eq_true] at hcond
    exact hcond.2
  have hone : dependencySatisfied all false depId = true :=
    (List.all_eq_true.mp hdeps) depId hdep
  unfold dependencySatisfied at hone
  rw [hfind] at hone
  simp at hone
  exact hone

/-- C1 witness: a pending feature whose single dependency is `completed`
is selected; its dependency's status is `completed` or `verified`. -/
theorem dispatch_requires_satisfied_dependencies_witness :
    { id := "feat", status := FeatureStatus.pending, priority := 2,
      dependencies := ["dep"] } ∈
      selectForDispatch
        [{ id := "dep", status := FeatureStatus.completed },
         { id := "feat", status := FeatureStatus.pending, priority := 2,
           dependencies := ["dep"] }] [] false 1 ∧
    (FeatureStatus.completed = FeatureStatus.completed ∨
      FeatureStatus.completed = FeatureStatus.verified) := by
  refine ⟨by decide, ?_⟩
  have h := dispatch_requires_satisfied_dependencies
    [{ id := "dep", status := FeatureStatus.completed },
     { id := "feat", status := FeatureStatus.pending, priority := 2,
       dependencies := ["dep"] }] [] 1
    { id := "feat", status := FeatureStatus.pending, priority := 2, dependencies := ["dep"] }
    (by decide) "dep" (by decide)
    { id := "dep", status := FeatureStatus.completed } (by decide)
  exact h

/-- C8: `detectSpecFallback` is true exactly when the text has task
structure (a tasks block or at least one task line) and spec-like prose
(any of the eight case-insensitive content indicators); in particular,
task lines without any content indicator yield `false`. -/
theorem detectSpecFallback_characterization (text : String) :
    (detectSpecFallback text = true ↔
      ((hasTasksBlockTest text.data = true ∨ containsTaskHeader text.data = true) ∧
       (hasAcceptanceCriteriaB text.data = true ∨ hasTechnicalContextB text.data = true ∨
        hasProblemStatementB text.data = true ∨ hasUserStoryB text.data = true ∨
        hasGoalB text.data = true ∨ hasSolutionB text.data = true ∨
        hasImplementationB text.data = true ∨ hasOverviewB text.data = true))) ∧
    (containsTaskHeader text.data = true → hasSpecContentB text.data = false →
      detectSpecFallback text = false) := by
  constructor
  · simp [detectSpecFallback, hasTaskStructureB, hasSpecContentB, Bool.or_eq_true,
      Bool.and_eq_true, or_assoc, and_assoc]
  · intro _ hno
    simp [detectSpecFallback, hno]

/-- C8 witness: a tasks block plus an "Acceptance Criteria" heading is
detected; task lines with no spec-content indicator are not. -/
theorem detectSpecFallback_characterization_witness :
    detectSpecFallback
      "## Acceptance Criteria\n- GIVEN a user, WHEN they login, THEN they see the dashboard\n\n```tasks\n- [ ] T001: Create login form | File: src/Login.tsx\n```\n" = true ∧
    detectSpecFallback
      "Here are some tasks:\n\n- [ ] T001: Do something\n- [ ] T002: Do another thing\n" = false := by
  constructor
  · exact (detectSpecFallback_characterization _).1.mpr
      ⟨Or.inl (by decide), Or.inl (by decide)⟩
  · exact (detectSpecFallback_characterization _).2 (by decide) (by decide)

/-- The contribution of a single block line under a given current phase:
nothing for a phase header or an unrecognized line, the parsed task with
that phase otherwise. -/
def lineTask (phase : Option String) (l : List Char) : Option ParsedTask :=
  match phaseOf (trimChars l) with
  | some _ => none
  | none =>
    if taskMark.isPrefixOf (trimChars l) then parseTaskLine (trimChars l) phase else none

/-- The last element of a list, or a fallback when the list is empty. -/
def lastOr (phase0 : Option String) (xs : List String) : Option String :=
  match xs.getLast? with
  | some p => some p
  | none => phase0

/-- The phase in force at line `i` of a block: the most recent phase
header strictly before line `i`, or the initial phase when none
precedes it. -/
def phaseAt (phase0 : Option String) (lines : List (List Char)) (i : Nat) : Option String :=
  lastOr phase0 ((lines.take i).filterMap (fun l => phaseOf (trimChars l)))

/-- The phase resulting from one line: a header sets it, anything else
keeps it. -/
def nextPhase (phase0 : Option String) (l : List Char) : Option String :=
  match phaseOf (trimChars l) with
  | some p => some p
  | none => phase0

theorem lastOr_cons (phase0 : Option String) (p : String) (xs : List String) :
    lastOr phase0 (p :: xs) = lastOr (some p) xs := by
  cases xs with
  | nil => rfl
  | cons y ys =>
    unfold lastOr
    rw [List.getLast?_cons_cons]
    cases h : (y :: ys).getLast? with
    | some q => rfl
    | none => exact absurd (List.getLast?_eq_none_iff.mp h) (by simp)

theorem phaseAt_zero (phase0 : Option String) (lines : List (List Char)) :
    phaseAt phase0 lines 0 = phase0 := by
  simp [phaseAt, lastOr]

theorem phaseAt_cons_succ (phase0 : Option String) (l : List Char)
    (ls : List (List Char)) (i : Nat) :
    phaseAt phase0 (l :: ls) (i + 1) = phaseAt (nextPhase phase0 l) ls i := by
  unfold phaseAt nextPhase
  rw [List.take_succ_cons, List.filterMap_cons]
  cases hp : phaseOf (trimChars l)
  · rfl
  · exact lastOr_cons _ _ _

theorem filterMap_range_succ {α : Type} (f : Nat → Option α) (n : Nat) :
    (List.range (n + 1)).filterMap f =
      (f 0).toList ++ (List.range n).filterMap (fun i => f (i + 1)) := by
  have hc : (f ∘ Nat.succ) = fun i => f (i + 1) := rfl
  rw [List.range_succ_eq_map, List.filterMap_cons, List.filterMap_map, hc]
  cases h : f 0 <;> simp [h]

/-- The stateful per-line loop equals a pointwise description: line `i`
contributes `lineTask` under the phase in force at `i`, in source-line
order. -/
theorem processLines_characterization (lines : List (List Char)) :
    ∀ phase0 : Option String,
      processLines lines phase0 =
        (List.range lines.length).filterMap
          (fun i => lineTask (phaseAt phase0 lines i) (lines.getD i [])) := by
  induction lines with
  | nil => intro phase0; rfl
  | cons l ls ih =>
    intro phase0
    have htail : (List.range ls.length).filterMap
        (fun i => lineTask (phaseAt phase0 (l :: ls) (i + 1)) (ls.getD i [])) =
        (List.range ls.length).filterMap
          (fun i => lineTask (phaseAt (nextPhase phase0 l) ls i) (ls.getD i [])) := by
      apply List.filterMap_congr
      intro i _
      rw [phaseAt_cons_succ]
    rw [List.length_cons, filterMap_range_succ]
    simp only [phaseAt_zero, List.getD_cons_zero, List.getD_cons_succ]
    rw [htail, ← ih (nextPhase phase0 l)]
    cases hp : phaseOf (trimChars l) with
    | some p =>
      have hlt : lineTask phase0 l = none := by simp [lineTask, hp]
      rw [hlt]
      simp only [Option.toList_none, List.nil_append]
      simp only [processLines, hp, nextPhase]
    | none =>
      simp only [nextPhase, hp]
      by_cases hm : taskMark.isPrefixOf (trimChars l)
      · cases hparse : parseTaskLine (trimChars l) phase0 with
        | some task => simp [processLines, hp, hm, hparse, lineTask]
        | none => simp [processLines, hp, hm, hparse, lineTask]
      · simp [processLines, hp, hm, lineTask]

/-- C7: given a fenced tasks block, every recognized task line receives
the phase of the most recent preceding `##` header inside the block
(none when no header precedes it), tasks come out in source-line order
regardless of their numeric ids, and non-matching lines are skipped. -/
theorem parseTasksFromSpec_block_phase_order (text : String) (content : List Char)
    (hblock : findTasksBlock text.data = some content) :
    parseTasksFromSpec text =
      (List.range (splitLines content).length).filterMap
        (fun i => lineTask (phaseAt none (splitLines content) i)
          ((splitLines content).getD i [])) := by
  unfold parseTasksFromSpec
  rw [hblock]
  exact processLines_characterization _ none

set_option maxRecDepth 40000

/-- C7 witness: a block with two phase headers and ids out of numeric
order; phases are attributed per preceding header and source order is
kept. -/
theorem parseTasksFromSpec_block_phase_order_witness :
    parseTasksFromSpec
      "```tasks\n## Phase 1: Foundation\n- [ ] T003: Third | File: a.ts\n- [ ] T001: First\n## Phase 2: Implementation\n- [ ] T002: Second\n```" =
      (List.range (splitLines "## Phase 1: Foundation\n- [ ] T003: Third | File: a.ts\n- [ ] T001: First\n## Phase 2: Implementation\n- [ ] T002: Second\n".data).length).filterMap
        (fun i => lineTask
          (phaseAt none
            (splitLines "## Phase 1: Foundation\n- [ ] T003: Third | File: a.ts\n- [ ] T001: First\n## Phase 2: Implementation\n- [ ] T002: Second\n".data) i)
          ((splitLines "## Phase 1: Foundation\n- [ ] T003: Third | File: a.ts\n- [ ] T001: First\n## Phase 2: Implementation\n- [ ] T002: Second\n".data).getD i [])) ∧
    parseTasksFromSpec
      "```tasks\n## Phase 1: Foundation\n- [ ] T003: Third | File: a.ts\n- [ ] T001: First\n## Phase 2: Implementation\n- [ ] T002: Second\n```" =
      [{ id := "T003", description := "Third", filePath := some "a.ts",
         phase := some "Phase 1: Foundation" },
       { id := "T001", description := "First", phase := some "Phase 1: Foundation" },
       { id := "T002", description := "Second", phase := some "Phase 2: Implementation" }] := by
  constructor
  · exact parseTasksFromSpec_block_phase_order _ _ (by decide)
  · decide

/-- C10: with a fenced tasks block present, the parse depends only on the
block's content — task lines outside the block are ignored, and an empty
block yields the empty list; the whole-text fallback scan runs exactly
when no fenced tasks block exists. -/
theorem parseTasksFromSpec_block_scoped (text : String) :
    (∀ content, findTasksBlock text.data = some content →
      parseTasksFromSpec text = processLines (splitLines content) none ∧
      (content = [] → parseTasksFromSpec text = [])) ∧
    (findTasksBlock text.data = none →
      parseTasksFromSpec text =
        (fallbackTaskLines text.data).filterMap (fun l => parseTaskLine l none)) := by
  constructor
  · intro content hb
    constructor
    · unfold parseTasksFromSpec
      rw [hb]
    · intro hc
      unfold parseTasksFromSpec
      rw [hb, hc]
      rfl
  · intro hn
    unfold parseTasksFromSpec
    rw [hn]

/-- C10 witness: an empty tasks block with valid task lines outside the
fences parses to the empty list even though the text contains task
lines. -/
theorem parseTasksFromSpec_block_scoped_witness :
    parseTasksFromSpec "- [ ] T001: Outside\n```tasks\n```\n- [ ] T002: Also outside" = [] ∧
    containsTaskHeader "- [ ] T001: Outside\n```tasks\n```\n- [ ] T002: Also outside".data = true := by
  constructor
  · exact ((parseTasksFromSpec_block_scoped _).1 [] (by decide)).2 rfl
  · decide
